import Mathlib

/-!
Verification of the `resp` HTTP response-construction library.

The Go sources are embedded shallowly: the `http.ResponseWriter` sink is a
record of pending headers, the committed status, and the body bytes written;
each `Response` method becomes a pure state transformer; a Go `error` result
becomes `Option String` (`none` = `nil`).  Machine integers are modelled as
`Int` (no arithmetic in the library can overflow a 64-bit int).
-/

namespace Resp

/-! ### Constants (from the constants file: header names, MIME types, statuses) -/

def HeaderContentType : String := "Content-Type"
def HeaderSetCookie : String := "Set-Cookie"
def HeaderContentDisposition : String := "Content-Disposition"
def HeaderLocation : String := "Location"
def HeaderContentLength : String := "Content-Length"

def MIMEApplicationJSONCharsetUTF8 : String := "application/json; charset=utf-8"
def MIMEApplicationJavaScriptCharsetUTF8 : String :=
  "application/javascript; charset=utf-8"
def MIMEOctetStream : String := "application/octet-stream"
def MIMETextPlain : String := "text/plain"
def MIMETextHTMLCharsetUTF8 : String := "text/html; charset=utf-8"

/-- StatusUndefined is the sentinel for "no status chosen yet". -/
def StatusUndefined : Int := 0

def StatusOK : Int := 200
def StatusNoContent : Int := 204
def StatusMultipleChoices : Int := 300
def StatusFound : Int := 302
def StatusPermanentRedirect : Int := 308
def StatusInternalServerError : Int := 500

/-- statusMessages maps HTTP status codes to their status messages
(Go `map[int]string`; a missing key yields the zero value `""`). -/
def statusMessages : Int → String
  | 100 => "Continue"
  | 101 => "Switching Protocols"
  | 102 => "Processing"
  | 103 => "Early Hints"
  | 200 => "OK"
  | 201 => "Created"
  | 202 => "Accepted"
  | 203 => "Non-Authoritative Information"
  | 204 => "No Content"
  | 205 => "Reset Content"
  | 206 => "Partial Content"
  | 207 => "Multi-Status"
  | 208 => "Already Reported"
  | 226 => "IM Used"
  | 300 => "Multiple Choices"
  | 301 => "Moved Permanently"
  | 302 => "Found"
  | 303 => "See Other"
  | 304 => "Not Modified"
  | 305 => "Use Proxy"
  | 306 => "Switch Proxy"
  | 307 => "Temporary Redirect"
  | 308 => "Permanent Redirect"
  | 400 => "Bad Request"
  | 401 => "Unauthorized"
  | 402 => "Payment Required"
  | 403 => "Forbidden"
  | 404 => "Not Found"
  | 405 => "Method Not Allowed"
  | 406 => "Not Acceptable"
  | 407 => "Proxy Authentication Required"
  | 408 => "Request Timeout"
  | 409 => "Conflict"
  | 410 => "Gone"
  | 411 => "Length Required"
  | 412 => "Precondition Failed"
  | 413 => "Request Entity Too Large"
  | 414 => "Request URI Too Long"
  | 415 => "Unsupported Media Type"
  | 416 => "Requested Range Not Satisfiable"
  | 417 => "Expectation Failed"
  | 418 => "I\x27m a teapot"
  | 421 => "Misdirected Request"
  | 422 => "Unprocessable Entity"
  | 423 => "Locked"
  | 424 => "Failed Dependency"
  | 425 => "Too Early"
  | 426 => "Upgrade Required"
  | 428 => "Precondition Required"
  | 429 => "Too Many Requests"
  | 431 => "Request Header Fields Too Large"
  | 451 => "Unavailable For Legal Reasons"
  | 500 => "Internal Server Error"
  | 501 => "Not Implemented"
  | 502 => "Bad Gateway"
  | 503 => "Service Unavailable"
  | 504 => "Gateway Timeout"
  | 505 => "HTTP Version Not Supported"
  | 506 => "Variant Also Negotiates"
  | 507 => "Insufficient Storage"
  | 508 => "Loop Detected"
  | 510 => "Not Extended"
  | 511 => "Network Authentication Required"
  | _ => ""

/-- singleHeaders lists the HTTP headers that are not lists of values
(header names resolved from the constants file). -/
def singleHeaders : List String :=
  ["Content-Type", "ETag", "Last-Modified", "Content-Length", "User-Agent",
   "Host", "Referer", "Server", "Date", "Location", "Retry-After",
   "Content-Disposition", "Content-Encoding", "Content-Language",
   "Content-Location", "If-Modified-Since", "If-Unmodified-Since", "If-Range",
   "Strict-Transport-Security", "Upgrade-Insecure-Requests",
   "X-Content-Type-Options", "X-Frame-Options", "X-XSS-Protection",
   "Content-DPR", "DPR", "Viewport-Width", "Width", "Content-Range"]

/-! ### The sink: `net/http`'s header map and response writer (external contract) -/

/-- A pending header collection: canonical name to ordered value list
(Go `http.Header`, i.e. `map[string][]string`; every call in this library
uses already-canonical constant names). -/
abbrev Header := List (String × List String)

/-- `Header.Values`: the ordered values stored under a key (`nil` slice = `[]`). -/
def hvalues : Header → String → List String
  | [], _ => []
  | p :: rest, key => if p.1 = key then p.2 else hvalues rest key

/-- Go map membership check `_, ok := m[key]`. -/
def hhas (h : Header) (key : String) : Bool :=
  h.any (fun p => p.1 = key)

/-- `Header.Set`: replace all values of a key by a single value. -/
def hset : Header → String → String → Header
  | [], key, value => [(key, [value])]
  | p :: rest, key, value =>
    if p.1 = key then (key, [value]) :: rest
    else p :: hset rest key value

/-- `Header.Add`: append one value to a key (each call makes a distinct line). -/
def hadd : Header → String → String → Header
  | [], key, value => [(key, [value])]
  | p :: rest, key, value =>
    if p.1 = key then (p.1, p.2 ++ [value]) :: rest
    else p :: hadd rest key value

/-- `Header.Del`: remove all values of a key. -/
def hdel (h : Header) (key : String) : Header :=
  h.filter (fun p => !(p.1 = key))

/-- The output sink behind `http.ResponseWriter`: pending headers, the status
committed by the first `WriteHeader` call (later calls are ignored), the body
bytes written so far, and the connection's behavior on body writes
(`writeError = some e` models a connection whose writes fail with `e`). -/
structure Sink where
  header : Header
  committed : Option Int
  body : String
  writeError : Option String

/-- `WriteHeader`: commit the status once; superfluous calls are ignored. -/
def Sink.writeHeader (w : Sink) (code : Int) : Sink :=
  match w.committed with
  | some _ => w
  | none => { w with committed := some code }

/-- `Write`: commit status 200 if uncommitted, then write body bytes;
returns the connection's write error, losing the bytes on failure. -/
def Sink.write (w : Sink) (data : String) : Sink × Option String :=
  let w := w.writeHeader 200
  match w.writeError with
  | some e => (w, some e)
  | none => ({ w with body := w.body ++ data }, none)

/-! ### `encoding/json` (external contract) and the error envelope -/

/-- ErrorResponse is the error envelope `{code, message}` (fields are
marshalled in declaration order under their `json:` tags). -/
structure ErrorResponse where
  Code : Int
  Message : String
deriving DecidableEq

/-- One character of Go `encoding/json` string escaping (HTML escaping on,
as in `json.Marshal` and `json.NewEncoder` defaults). -/
def jsonEscapeChar (c : Char) : String :=
  if c = '"' then "\\\""
  else if c = '\\' then "\\\\"
  else if c = '\n' then "\\n"
  else if c = '\r' then "\\r"
  else if c = '\t' then "\\t"
  else if c = '<' then "\\u003c"
  else if c = '>' then "\\u003e"
  else if c = '&' then "\\u0026"
  else if c.toNat < 32 then
    "\\u00" ++ String.singleton (Nat.digitChar (c.toNat / 16))
            ++ String.singleton (Nat.digitChar (c.toNat % 16))
  else String.singleton c

/-- Go `encoding/json` quoting of a string value. -/
def jsonQuote (s : String) : String :=
  "\"" ++ String.join (s.data.map jsonEscapeChar) ++ "\""

/-- `json.Marshal` applied to a `*ErrorResponse`: the two fields in
declaration order under their tags. -/
def marshalErrorResponse (e : ErrorResponse) : String :=
  "\x7b\"code\":" ++ toString e.Code ++ ",\"message\":"
    ++ jsonQuote e.Message ++ "\x7d"

/-- A Go `any` value handed to the JSON emitters, represented by its
`json.Marshal` outcome: an ordinary value (with its JSON text), a value
`json.Marshal` rejects (func, chan, NaN, ... with its error text), or an
error envelope built by `newErrorResponse`. -/
inductive JData where
  | value (json : String)
  | invalid (msg : String)
  | envelope (e : ErrorResponse)
deriving DecidableEq

/-- `json.Marshal` on a `JData` value. -/
def jsonMarshal : JData → Except String String
  | .value s => .ok s
  | .invalid m => .error m
  | .envelope e => .ok (marshalErrorResponse e)

/-- `json.NewEncoder(w).Encode(v)`: marshal fully, then write the JSON text
followed by a newline (nothing is produced on a marshal error). -/
def goEncode (d : JData) : Except String String :=
  match jsonMarshal d with
  | .error e => .error e
  | .ok s => .ok (s ++ "\n")

/-- newErrorResponse builds the envelope from the given code and optional
message; without a message the default text from `statusMessages` is used. -/
def newErrorResponse (status : Int) (message : List String) : ErrorResponse :=
  let msg := statusMessages status
  let msg := match message with
    | [] => msg
    | m :: _ => m
  { Code := status, Message := msg }

/-! ### The Response builder and its methods -/

/-- JSONEncodeFunc: a custom encoder writing into the given `io.Writer`;
modelled by the bytes it writes and the error it returns. -/
abbrev JSONEncodeFunc := JData → String × Option String

/-- Response: the mutable per-request builder (sink reference, pending
status, optional custom JSON encoder). -/
structure Response where
  httpWriter : Sink
  statusCode : Int
  jsonEncodeFunc : Option JSONEncodeFunc

/-- prepare: set the default content type if none is present yet, and the
default status if the status is still `StatusUndefined`. -/
def Response.prepare (r : Response) (defStatus : Int)
    (defContentType : List String) : Response :=
  let ok := hhas r.httpWriter.header HeaderContentType
  let r :=
    match defContentType with
    | [] => r
    | ct :: _ =>
      if !ok then
        { r with httpWriter :=
          { r.httpWriter with
            header := hset r.httpWriter.header HeaderContentType ct } }
      else r
  if r.statusCode = StatusUndefined then
    { r with statusCode := defStatus }
  else r

/-- SetJSONEncoder sets the custom JSON encoder function. -/
def Response.SetJSONEncoder (r : Response) (f : JSONEncodeFunc) : Response :=
  { r with jsonEncodeFunc := some f }

/-- SetStatus always overwrites the pending status code. -/
def Response.SetStatus (r : Response) (code : Int) : Response :=
  { r with statusCode := code }

/-- SetHeader: on a single-valued header only the first value is kept;
otherwise all values are comma-joined into one line. -/
def Response.SetHeader (r : Response) (key : String)
    (value : List String) : Response :=
  if singleHeaders.contains key && value.length > 0 then
    { r with httpWriter :=
      { r.httpWriter with
        header := hset r.httpWriter.header key (value.headD "") } }
  else
    { r with httpWriter :=
      { r.httpWriter with
        header := hset r.httpWriter.header key
          (String.intercalate "," value) } }

/-- AddHeader: on a single-valued header behaves as SetHeader with the first
value; otherwise each value becomes its own header line. -/
def Response.AddHeader (r : Response) (key : String)
    (value : List String) : Response :=
  if singleHeaders.contains key && value.length > 0 then
    r.SetHeader key [value.headD ""]
  else
    { r with httpWriter :=
      { r.httpWriter with
        header := value.foldl (fun h v => hadd h key v)
          r.httpWriter.header } }

/-- DelCookie: filter the queued `Set-Cookie` lines, dropping those that
start with `name + "="`, then re-queue the survivors in order. -/
def Response.DelCookie (r : Response) (name : String) : Response :=
  let filteredCookies :=
    (hvalues r.httpWriter.header HeaderSetCookie).filter
      (fun c => !((name ++ "=").data.isPrefixOf c.data))
  let h := hdel r.httpWriter.header HeaderSetCookie
  let h := filteredCookies.foldl (fun h c => hadd h HeaderSetCookie c) h
  { r with httpWriter := { r.httpWriter with header := h } }

/-- JSON: prepare, commit status and headers, then encode straight into the
sink (custom encoder if set, else the default `json` encoder). -/
def Response.JSON (r : Response) (data : JData) : Response × Option String :=
  let r := r.prepare StatusOK [MIMEApplicationJSONCharsetUTF8]
  let r := { r with httpWriter := r.httpWriter.writeHeader r.statusCode }
  match r.jsonEncodeFunc with
  | some f =>
    let (out, ferr) := f data
    let (w, _) := r.httpWriter.write out
    let r := { r with httpWriter := w }
    match ferr with
    | some e => (r, some ("custom JSON encoder failed: " ++ e))
    | none => (r, none)
  | none =>
    match goEncode data with
    | .error e => (r, some ("failed to encode JSON response: " ++ e))
    | .ok s =>
      let (w, werr) := r.httpWriter.write s
      ({ r with httpWriter := w },
        werr.map (fun e => "failed to encode JSON response: " ++ e))

/-- Error: default the status to 500 when still undefined, then emit the
envelope through the JSON path. -/
def Response.Error (r : Response) (code : Int)
    (message : String) : Response × Option String :=
  let r :=
    if r.statusCode = StatusUndefined then
      { r with statusCode := StatusInternalServerError }
    else r
  r.JSON (JData.envelope (newErrorResponse code [message]))

/-- String sends a plain-text response. -/
def Response.StringBody (r : Response) (data : String) :
    Response × Option String :=
  let r := r.prepare StatusOK [MIMETextPlain]
  let r := { r with httpWriter := r.httpWriter.writeHeader r.statusCode }
  let (w, err) := r.httpWriter.write data
  ({ r with httpWriter := w }, err)

/-- ServeFile: prepare, then hand the sink to the `http.ServeFile` delegate
(which owns status/header commit and error rendering); always returns nil. -/
def Response.ServeFile (r : Response) (delegate : Sink → Sink) :
    Response × Option String :=
  let r := r.prepare StatusOK [MIMEOctetStream]
  ({ r with httpWriter := delegate r.httpWriter }, none)

/-- ServeFileAsDownload: set the attachment Content-Disposition, prepare,
commit, write the raw bytes. -/
def Response.ServeFileAsDownload (r : Response) (fileName : String)
    (data : String) : Response × Option String :=
  let r := { r with httpWriter :=
    { r.httpWriter with
      header := hset r.httpWriter.header HeaderContentDisposition
        ("attachment; filename=\"" ++ fileName ++ "\"") } }
  let r := r.prepare StatusOK [MIMEOctetStream]
  let r := { r with httpWriter := r.httpWriter.writeHeader r.statusCode }
  let (w, err) := r.httpWriter.write data
  ({ r with httpWriter := w }, err)

/-- Redirect: clamp an unset or out-of-range status to 302, set `Location`,
commit, no body; always returns nil. -/
def Response.Redirect (r : Response) (url : String) :
    Response × Option String :=
  let r := r.prepare StatusFound []
  let s := r.statusCode
  let s :=
    if s < StatusMultipleChoices ∨ s > StatusPermanentRedirect then
      StatusFound
    else s
  let r := { r with httpWriter :=
    { r.httpWriter with
      header := hset r.httpWriter.header "Location" url } }
  let r := { r with httpWriter := r.httpWriter.writeHeader s }
  (r, none)

/-- NoContent: force status 204 and commit it; no body; always returns nil. -/
def Response.NoContent (r : Response) : Response × Option String :=
  let r := r.SetStatus StatusNoContent
  let r := r.prepare StatusNoContent []
  let r := { r with httpWriter := r.httpWriter.writeHeader StatusNoContent }
  (r, none)

/-! ### Options and NewResponse -/

/-- Option: a self-returning mutator over the builder. -/
abbrev RespOption := Response → Response

/-- NewResponse: fresh builder over the sink, then apply the options. -/
def newResponse (w : Sink) (opts : List RespOption) : Response :=
  opts.foldl (fun r opt => opt r)
    { httpWriter := w, statusCode := StatusUndefined, jsonEncodeFunc := none }

/-- WithHeader adds the key/values pair through AddHeader. -/
def WithHeader (key : String) (values : List String) : RespOption :=
  fun r => r.AddHeader key values

/-- WithStatus sets the status code. -/
def WithStatus (code : Int) : RespOption :=
  fun r => r.SetStatus code

/-- UTF-8 byte encoding of one character (`[]byte(string)` in Go). -/
def utf8Bytes (c : Char) : List Nat :=
  let n := c.toNat
  if n < 0x80 then [n]
  else if n < 0x800 then
    [0xC0 + n / 0x40, 0x80 + n % 0x40]
  else if n < 0x10000 then
    [0xE0 + n / 0x1000, 0x80 + (n / 0x40) % 0x40, 0x80 + n % 0x40]
  else
    [0xF0 + n / 0x40000, 0x80 + (n / 0x1000) % 0x40,
     0x80 + (n / 0x40) % 0x40, 0x80 + n % 0x40]

/-- Byte classification of Go `url.PathEscape` (`shouldEscape` with the
path-segment mode): keep alphanumerics, `-_.~` and `$&+:=@`. -/
def shouldEscapeSeg (b : Nat) : Bool :=
  if 97 ≤ b ∧ b ≤ 122 then false
  else if 65 ≤ b ∧ b ≤ 90 then false
  else if 48 ≤ b ∧ b ≤ 57 then false
  else if b = 45 ∨ b = 95 ∨ b = 46 ∨ b = 126 then false
  else if b = 36 ∨ b = 38 ∨ b = 43 ∨ b = 58 ∨ b = 61 ∨ b = 64 then false
  else true

/-- Upper-case hex digit. -/
def upperHexDigit (n : Nat) : Char :=
  if n < 10 then Char.ofNat (48 + n) else Char.ofNat (55 + n)

/-- Go `url.PathEscape`: percent-encode every byte the path-segment mode
escapes, upper-case hex. -/
def pathEscape (s : String) : String :=
  String.mk ((s.data.flatMap utf8Bytes).flatMap (fun b =>
    if shouldEscapeSeg b then
      ['%', upperHexDigit (b / 16), upperHexDigit (b % 16)]
    else [Char.ofNat b]))

/-- AddContentDisposition sets the Content-Disposition header, in the RFC
5987 `filename*=UTF-8''…` form when UTF-8 encoding is requested, else the
plain quoted-filename form. -/
def AddContentDisposition (dispositionType fileName : String)
    (useUTF8Encoding : List Bool) : RespOption :=
  fun r =>
    match useUTF8Encoding with
    | true :: _ =>
      WithHeader HeaderContentDisposition
        [dispositionType ++ "; filename*=UTF-8\x27\x27" ++ pathEscape fileName] r
    | _ =>
      WithHeader HeaderContentDisposition
        [dispositionType ++ "; filename=\"" ++ fileName ++ "\""] r

/-- An uncommitted sink with no pending headers and a healthy connection. -/
def emptySink : Sink :=
  { header := [], committed := none, body := "", writeError := none }

/-! ### Lemmas about the header dictionary -/

theorem hvalues_hset (h : Header) (k v : String) :
    hvalues (hset h k v) k = [v] := by
  induction h with
  | nil => simp [hset, hvalues]
  | cons p t ih =>
    by_cases hp : p.1 = k
    · simp [hset, hp, hvalues]
    · simp [hset, hp, hvalues, ih]

theorem hvalues_hset_ne (h : Header) (k q v : String) (hne : q ≠ k) :
    hvalues (hset h k v) q = hvalues h q := by
  induction h with
  | nil => simp [hset, hvalues, hne.symm]
  | cons p t ih =>
    by_cases hp : p.1 = k
    · simp [hset, hp, hvalues, hne.symm]
    · simp [hset, hp, hvalues, ih]

theorem hhas_hset_ne (h : Header) (k q v : String) (hne : q ≠ k) :
    hhas (hset h k v) q = hhas h q := by
  induction h with
  | nil => simp [hset, hhas, hne.symm]
  | cons p t ih =>
    by_cases hp : p.1 = k
    · simp [hset, hp, hhas, hne.symm]
    · simp only [hset, hp, if_false, hhas, List.any_cons] at ih ⊢
      rw [ih]

theorem hvalues_hdel (h : Header) (k : String) :
    hvalues (hdel h k) k = [] := by
  induction h with
  | nil => simp [hdel, hvalues]
  | cons p t ih =>
    by_cases hp : p.1 = k
    · simpa [hdel, hp, hvalues] using ih
    · simpa [hdel, hp, hvalues] using ih

theorem hvalues_hadd (h : Header) (k v : String) :
    hvalues (hadd h k v) k = hvalues h k ++ [v] := by
  induction h with
  | nil => simp [hadd, hvalues]
  | cons p t ih =>
    by_cases hp : p.1 = k
    · simp [hadd, hp, hvalues]
    · simp [hadd, hp, hvalues, ih]

theorem hvalues_foldl_hadd (l : List String) (h : Header) (k : String) :
    hvalues (l.foldl (fun h c => hadd h k c) h) k = hvalues h k ++ l := by
  induction l generalizing h with
  | nil => simp
  | cons c t ih => simp [List.foldl_cons, ih, hvalues_hadd]

/-! ### The spec's reading of cookie deletion: exact name-token matching -/

/-- The name token of a queued `Set-Cookie` line: the characters before the
first `=` separator (the specification's wording for `DelCookie`). -/
def cookieNameToken (line : String) : String :=
  String.mk (line.data.takeWhile (fun x => x != '='))

/-- The specification's deletion predicate: the line carries an `=` separator
and its name token equals the deleted name exactly. -/
def specCookieMatch (name line : String) : Bool :=
  decide (('=' : Char) ∈ line.data) && decide (cookieNameToken line = name)

theorem boolEq_of_iff {a b : Bool} (h : (a = true) ↔ (b = true)) : a = b := by
  cases a <;> cases b <;> simp_all

/-- Matching the raw prefix `n ++ "="` is the same as exact name-token
equality, provided the deleted name itself contains no `=`. -/
theorem prefixEq_iff (n c : List Char) (hn : ('=' : Char) ∉ n) :
    ((n ++ ['=']).isPrefixOf c = true) ↔
      (('=' : Char) ∈ c ∧ c.takeWhile (fun x => x != '=') = n) := by
  rw [List.isPrefixOf_iff_prefix]
  induction n generalizing c with
  | nil =>
    cases c with
    | nil => simp
    | cons a t =>
      by_cases ha : a = '='
      · subst ha
        simp [List.cons_prefix_cons, List.takeWhile_cons]
      · simp [List.cons_prefix_cons, List.takeWhile_cons, ha, Ne.symm ha]
  | cons x n ih =>
    have hx : x ≠ '=' := fun e => hn (e ▸ List.mem_cons_self x n)
    have hn' : ('=' : Char) ∉ n := fun m => hn (List.mem_cons_of_mem x m)
    cases c with
    | nil => simp
    | cons a t =>
      by_cases hax : a = x
      · subst hax
        simp [List.cons_prefix_cons, List.takeWhile_cons, hx,
          Ne.symm hx, ih t hn']
      · by_cases ha : a = '='
        · subst ha
          simp [List.cons_prefix_cons, List.takeWhile_cons, Ne.symm hax]
        · simp [List.cons_prefix_cons, List.takeWhile_cons, ha, Ne.symm hax,
            Ne.symm ha]
          exact fun _ e => absurd e hax

/-- The Go filter predicate of `DelCookie` coincides with the spec's exact
name-token predicate when the name has no `=` in it. -/
theorem delCookie_pred (name c : String) (hn : ('=' : Char) ∉ name.data) :
    (!((name ++ "=").data.isPrefixOf c.data)) = !specCookieMatch name c := by
  have hdata : (name ++ "=").data = name.data ++ ['='] := by
    simp [String.data_append]
  congr 1
  rw [hdata]
  apply boolEq_of_iff
  rw [prefixEq_iff name.data c.data hn]
  simp only [specCookieMatch, Bool.and_eq_true, decide_eq_true_eq]
  constructor
  · rintro ⟨h1, h2⟩
    refine ⟨h1, ?_⟩
    simp [cookieNameToken, h2]
  · rintro ⟨h1, h2⟩
    refine ⟨h1, ?_⟩
    have := congrArg String.data h2
    simpa [cookieNameToken] using this

/-! ### Claim theorems -/

/-- C10: the Redirect, NoContent and ServeFile emitters return nil on every
input; ServeFile returns nil whatever the `http.ServeFile` delegate does to
the sink (the delegate renders its own error response instead of returning
one). -/
theorem emitters_never_fail (r1 r2 r3 : Response) (url : String)
    (delegate : Sink → Sink) :
    (r1.Redirect url).2 = none ∧ r2.NoContent.2 = none ∧
      (r3.ServeFile delegate).2 = none :=
  ⟨rfl, rfl, rfl⟩

/-- C4: prepare sets the default Content-Type only when none is present and
the default status only while the status is still the undefined sentinel; a
prior Content-Type and a prior status are left unchanged. -/
theorem prepare_defaults (r : Response) (s : Int) (t : String) :
    (hhas r.httpWriter.header HeaderContentType = false →
      hvalues ((r.prepare s [t]).httpWriter.header) HeaderContentType = [t]) ∧
    (hhas r.httpWriter.header HeaderContentType = true →
      (r.prepare s [t]).httpWriter.header = r.httpWriter.header) ∧
    (r.statusCode = StatusUndefined → (r.prepare s [t]).statusCode = s) ∧
    (r.statusCode ≠ StatusUndefined →
      (r.prepare s [t]).statusCode = r.statusCode) := by
  refine ⟨?_, ?_, ?_, ?_⟩ <;> intro h <;> unfold Response.prepare <;>
    dsimp only <;> split_ifs <;> simp_all [hvalues_hset]

/-- C4 witness: on a fresh builder, prepare(200, application/json) sets both
defaults; with Content-Type already text/html and status 302, it changes
nothing. -/
theorem prepare_defaults_witness :
    hvalues (((newResponse emptySink []).prepare 200
        ["application/json"]).httpWriter.header) HeaderContentType
      = ["application/json"] ∧
    ((newResponse emptySink []).prepare 200 ["application/json"]).statusCode
      = 200 ∧
    ((newResponse
        { emptySink with header := [("Content-Type", ["text/html"])] }
        [WithStatus 302]).prepare 200
          ["application/json"]).httpWriter.header
      = [("Content-Type", ["text/html"])] ∧
    ((newResponse
        { emptySink with header := [("Content-Type", ["text/html"])] }
        [WithStatus 302]).prepare 200 ["application/json"]).statusCode
      = 302 := by
  refine ⟨(prepare_defaults _ 200 "application/json").1 (by decide),
    (prepare_defaults _ 200 "application/json").2.2.1 (by decide),
    (prepare_defaults _ 200 "application/json").2.1 (by decide),
    ?_⟩
  have := (prepare_defaults (newResponse
      { emptySink with header := [("Content-Type", ["text/html"])] }
      [WithStatus 302]) 200 "application/json").2.2.2 (by decide)
  simpa using this

/-- C5: on a single-valued header, SetHeader keeps only the first supplied
value, and AddHeader degrades to SetHeader with that first value. -/
theorem singleHeader_policy (r : Response) (H v : String) (vs : List String)
    (hH : H ∈ singleHeaders) :
    hvalues ((r.SetHeader H (v :: vs)).httpWriter.header) H = [v] ∧
    r.AddHeader H (v :: vs) = r.SetHeader H [v] := by
  have hc : singleHeaders.contains H = true := by
    simpa using hH
  constructor
  · unfold Response.SetHeader
    simp [hc, hH, hvalues_hset]
  · unfold Response.AddHeader
    simp [hc, hH]

/-- C5 witness: Content-Length is single-valued; SetHeader keeps only "5",
and AddHeader with ["5", "6"] equals SetHeader with ["5"]. -/
theorem singleHeader_policy_witness :
    "Content-Length" ∈ singleHeaders ∧
    hvalues (((newResponse emptySink []).SetHeader "Content-Length"
        ["5", "6"]).httpWriter.header) "Content-Length" = ["5"] ∧
    (newResponse emptySink []).AddHeader "Content-Length" ["5", "6"]
      = (newResponse emptySink []).SetHeader "Content-Length" ["5"] :=
  ⟨by decide,
    (singleHeader_policy (newResponse emptySink []) "Content-Length" "5" ["6"]
      (by decide)).1,
    (singleHeader_policy (newResponse emptySink []) "Content-Length" "5" ["6"]
      (by decide)).2⟩

/-- C6: on a header outside the single-valued set, two AddHeader calls yield
two distinct header lines, never a comma-joined one. -/
theorem multiHeader_add_lines (r : Response) (H a b : String)
    (hH : H ∉ singleHeaders)
    (h0 : hvalues r.httpWriter.header H = []) :
    hvalues (((r.AddHeader H [a]).AddHeader H [b]).httpWriter.header) H
      = [a, b] := by
  have hc : singleHeaders.contains H = false := by
    simpa using hH
  unfold Response.AddHeader
  simp [hc, hH, hvalues_hadd, h0]

/-- C6 witness: WWW-Authenticate is multi-valued; adding "a" then "b" yields
the two lines ["a", "b"]. -/
theorem multiHeader_add_lines_witness :
    "WWW-Authenticate" ∉ singleHeaders ∧
    hvalues ((((newResponse emptySink []).AddHeader "WWW-Authenticate"
        ["a"]).AddHeader "WWW-Authenticate" ["b"]).httpWriter.header)
      "WWW-Authenticate" = ["a", "b"] :=
  ⟨by decide,
    multiHeader_add_lines (newResponse emptySink []) "WWW-Authenticate" "a" "b"
      (by decide) (by decide)⟩

/-- C9: DelCookie removes exactly the queued Set-Cookie lines whose name
token up to the `=` separator equals the deleted name; lines whose name
merely extends it survive, in their original order (the `name + "="` prefix
test is exact name-token matching whenever the name itself has no `=`). -/
theorem delCookie_exact_name (r : Response) (name : String)
    (hn : ('=' : Char) ∉ name.data) :
    hvalues ((r.DelCookie name).httpWriter.header) HeaderSetCookie
      = (hvalues r.httpWriter.header HeaderSetCookie).filter
          (fun c => !specCookieMatch name c) := by
  unfold Response.DelCookie
  dsimp only
  rw [hvalues_foldl_hadd, hvalues_hdel, List.nil_append]
  exact List.filter_congr (fun c _ => delCookie_pred name c hn)

/-- C9 witness: deleting "session" drops "session=abc" but keeps
"session_id=xyz". -/
theorem delCookie_exact_name_witness :
    hvalues (((newResponse
        { emptySink with
          header := [("Set-Cookie", ["session=abc", "session_id=xyz"])] }
        []).DelCookie "session").httpWriter.header) HeaderSetCookie
      = ["session_id=xyz"] := by
  rw [delCookie_exact_name _ "session" (by decide)]
  decide

/-- C7: Redirect sets Location and commits with no body; the committed
status is the pending one when it lies in [300, 308] and 302 otherwise
(an unset status means the `StatusUndefined` sentinel 0, also clamped). -/
theorem redirect_clamps (r : Response) (url : String)
    (hc : r.httpWriter.committed = none) :
    hvalues ((r.Redirect url).1.httpWriter.header) "Location" = [url] ∧
    (r.Redirect url).1.httpWriter.committed
      = some (if 300 ≤ r.statusCode ∧ r.statusCode ≤ 308 then r.statusCode
          else 302) ∧
    (r.Redirect url).1.httpWriter.body = r.httpWriter.body := by
  obtain ⟨⟨hdr, cm, bd, we⟩, sc, enc⟩ := r
  simp only at hc
  subst hc
  unfold Response.Redirect Response.prepare Sink.writeHeader
  dsimp only
  split_ifs <;>
    simp_all [hvalues_hset, StatusUndefined, StatusFound,
      StatusMultipleChoices, StatusPermanentRedirect]
  omega

/-- C7 witness: with no prior status the redirect commits 302; after
SetStatus(199) it also commits 302; after SetStatus(301) it commits 301. -/
theorem redirect_clamps_witness :
    ((newResponse emptySink []).Redirect "/a").1.httpWriter.committed
      = some 302 ∧
    (((newResponse emptySink []).SetStatus 199).Redirect
        "/a").1.httpWriter.committed = some 302 ∧
    (((newResponse emptySink []).SetStatus 301).Redirect
        "/a").1.httpWriter.committed = some 301 ∧
    hvalues (((newResponse emptySink []).Redirect
        "/a").1.httpWriter.header) "Location" = ["/a"] := by
  refine ⟨?_, ?_, ?_, (redirect_clamps (newResponse emptySink []) "/a" rfl).1⟩
  · rw [(redirect_clamps (newResponse emptySink []) "/a" rfl).2.1]; decide
  · rw [(redirect_clamps ((newResponse emptySink []).SetStatus 199) "/a"
      rfl).2.1]; decide
  · rw [(redirect_clamps ((newResponse emptySink []).SetStatus 301) "/a"
      rfl).2.1]; decide

/-- C3: with no caller-supplied message, the error envelope carries the
status-table default text for the code and the code itself, and the JSON
emission writes exactly that envelope (plus the encoder's newline). -/
theorem errorEnvelope_default_message (c : Int) (r : Response)
    (henc : r.jsonEncodeFunc = none)
    (hw : r.httpWriter.writeError = none) :
    (newErrorResponse c []).Code = c ∧
    (newErrorResponse c []).Message = statusMessages c ∧
    (r.JSON (JData.envelope (newErrorResponse c []))).1.httpWriter.body
      = r.httpWriter.body ++ marshalErrorResponse (newErrorResponse c [])
          ++ "\n" := by
  obtain ⟨⟨hdr, cm, bd, we⟩, sc, enc⟩ := r
  simp only at henc hw
  subst henc hw
  refine ⟨rfl, rfl, ?_⟩
  unfold Response.JSON Response.prepare Sink.writeHeader Sink.write goEncode
    jsonMarshal
  dsimp only
  split_ifs <;> cases cm <;> simp [Sink.writeHeader, String.append_assoc]

/-- C3 witness: with code 404 and no message, the emitted body is the
envelope with the table text "Not Found". -/
theorem errorEnvelope_default_message_witness :
    ((newResponse emptySink []).JSON
        (JData.envelope (newErrorResponse 404 []))).1.httpWriter.body
      = "\x7b\"code\":404,\"message\":\"Not Found\"\x7d\n" ∧
    (newErrorResponse 404 []).Message = statusMessages 404 := by
  refine ⟨?_, (errorEnvelope_default_message 404 (newResponse emptySink [])
    rfl rfl).2.1⟩
  rw [(errorEnvelope_default_message 404 (newResponse emptySink [])
    rfl rfl).2.2]
  decide

/-- C8: Error(404, "not found") writes the envelope body
`\x7b"code":404,"message":"not found"\x7d` (plus the encoder newline); the
committed HTTP status is 500 only when no status was set before, else the
prior status is preserved — the envelope code never becomes the status. -/
theorem error_preserves_status (r : Response)
    (henc : r.jsonEncodeFunc = none)
    (hw : r.httpWriter.writeError = none)
    (hc : r.httpWriter.committed = none) :
    (r.Error 404 "not found").1.httpWriter.body
      = r.httpWriter.body
          ++ "\x7b\"code\":404,\"message\":\"not found\"\x7d\n" ∧
    (r.Error 404 "not found").1.httpWriter.committed
      = some (if r.statusCode = StatusUndefined then 500 else r.statusCode) ∧
    (r.Error 404 "not found").2 = none := by
  obtain ⟨⟨hdr, cm, bd, we⟩, sc, enc⟩ := r
  simp only at henc hw hc
  subst henc hw hc
  have hX : marshalErrorResponse (newErrorResponse 404 ["not found"]) ++ "\n"
      = "\x7b\"code\":404,\"message\":\"not found\"\x7d\n" := by decide
  unfold Response.Error Response.JSON Response.prepare Sink.writeHeader
    Sink.write goEncode jsonMarshal
  dsimp only
  split_ifs <;>
    simp_all [Sink.writeHeader, StatusUndefined, StatusInternalServerError,
      StatusOK, String.append_assoc]

/-- C8 witness: on a fresh builder the committed status is 500; after
SetStatus(418) it stays 418; the body is the envelope for (404, not found). -/
theorem error_preserves_status_witness :
    ((newResponse emptySink []).Error 404 "not found").1.httpWriter.committed
      = some 500 ∧
    (((newResponse emptySink []).SetStatus 418).Error
        404 "not found").1.httpWriter.committed = some 418 ∧
    ((newResponse emptySink []).Error 404 "not found").1.httpWriter.body
      = "\x7b\"code\":404,\"message\":\"not found\"\x7d\n" := by
  refine ⟨?_, ?_, ?_⟩
  · rw [(error_preserves_status (newResponse emptySink [])
      rfl rfl rfl).2.1]; decide
  · rw [(error_preserves_status ((newResponse emptySink []).SetStatus 418)
      rfl rfl rfl).2.1]; decide
  · rw [(error_preserves_status (newResponse emptySink [])
      rfl rfl rfl).1]; decide

/-- C1 counterexample: emitting JSON of a value the encoder rejects (a Go
channel, say) returns the encode error, yet the status/header commit has
already happened — refuting "when encoding fails the emitter returns the
error with no header commit having occurred". -/
theorem json_buffering_cex :
    ((newResponse emptySink []).JSON
        (JData.invalid "json: unsupported type: chan int")).2
      = some
          "failed to encode JSON response: json: unsupported type: chan int" ∧
    ((newResponse emptySink []).JSON
        (JData.invalid "json: unsupported type: chan int")).1.httpWriter.committed
      = some 200 := by
  refine ⟨by decide, by decide⟩

set_option maxHeartbeats 1000000 in
/-- C1 amended: JSON commits status and headers to the sink before encoding
and encodes directly into the sink (default and custom encoder paths alike);
an encode failure is returned to the caller, but only after the header
commit, and the default encoder writes no body bytes on failure. -/
theorem json_commits_before_encode (r : Response) (d : JData)
    (hc : r.httpWriter.committed = none) :
    (r.JSON d).1.httpWriter.committed
      = some (if r.statusCode = StatusUndefined then StatusOK
          else r.statusCode) ∧
    (r.jsonEncodeFunc = none → ∀ e, jsonMarshal d = Except.error e →
      (r.JSON d).2 = some ("failed to encode JSON response: " ++ e) ∧
      (r.JSON d).1.httpWriter.body = r.httpWriter.body) := by
  obtain ⟨⟨hdr, cm, bd, we⟩, sc, enc⟩ := r
  simp only at hc
  subst hc
  constructor
  · unfold Response.JSON Response.prepare Sink.writeHeader Sink.write goEncode
    dsimp only
    rcases enc with _ | f
    · rcases hjm : jsonMarshal d with e | s <;> rcases we with _ | err <;>
        split_ifs <;> simp_all [Sink.writeHeader]
    · rcases hfd : f d with ⟨out, ferr⟩
      rcases ferr with _ | fe <;> rcases we with _ | err <;> split_ifs <;>
        simp_all [Sink.writeHeader]
  · intro henc e hjm
    simp only at henc
    subst henc
    unfold Response.JSON Response.prepare Sink.writeHeader Sink.write goEncode
    dsimp only
    rw [hjm]
    split_ifs <;> simp_all [Sink.writeHeader]

/-- C1 amended witness: on a fresh builder with the failing value, the
header commit is 200 and the error is returned with no body written. -/
theorem json_commits_before_encode_witness :
    ((newResponse emptySink []).JSON (JData.invalid "bad")).1.httpWriter.committed
      = some 200 ∧
    ((newResponse emptySink []).JSON (JData.invalid "bad")).2
      = some "failed to encode JSON response: bad" ∧
    ((newResponse emptySink []).JSON (JData.invalid "bad")).1.httpWriter.body
      = "" := by
  refine ⟨?_, ?_, ?_⟩
  · rw [(json_commits_before_encode (newResponse emptySink [])
      (JData.invalid "bad") rfl).1]; decide
  · exact ((json_commits_before_encode (newResponse emptySink [])
      (JData.invalid "bad") rfl).2 rfl "bad" rfl).1
  · exact ((json_commits_before_encode (newResponse emptySink [])
      (JData.invalid "bad") rfl).2 rfl "bad" rfl).2

/-- The builder of the C2 counterexample: UTF-8 encoding is requested for
the non-ASCII name via the AddContentDisposition option, which queues the
RFC 5987 form. -/
def utf8DownloadResp : Response :=
  newResponse emptySink
    [AddContentDisposition "attachment" "résumé.txt" [true]]

/-- C2 counterexample: even though UTF-8 encoding was requested for the
non-ASCII name (the option had queued the RFC 5987 form), ServeFileAsDownload
overwrites Content-Disposition with the plain quoted-filename form, which is
not the RFC 5987 value — refuting the claim's RFC 5987 half. -/
theorem download_rfc5987_cex :
    hvalues (utf8DownloadResp.httpWriter.header) HeaderContentDisposition
      = ["attachment; filename*=UTF-8\x27\x27r%C3%A9sum%C3%A9.txt"] ∧
    hvalues ((utf8DownloadResp.ServeFileAsDownload
        "résumé.txt" "data").1.httpWriter.header) HeaderContentDisposition
      = ["attachment; filename=\"résumé.txt\""] ∧
    ("attachment; filename=\"résumé.txt\"" : String)
      ≠ "attachment; filename*=UTF-8\x27\x27r%C3%A9sum%C3%A9.txt" := by
  refine ⟨by decide, by decide, by decide⟩

/-- C2 amended: ServeFileAsDownload always sets the plain
`attachment; filename="name"` Content-Disposition — for every name, even
when the RFC 5987 form was requested through AddContentDisposition (it is
overwritten) — before prepare/commit, and then writes the raw bytes; the
RFC 5987 `filename*=UTF-8''…` form is produced only by the
AddContentDisposition option with UTF-8 encoding requested. -/
theorem download_plain_disposition (r r2 : Response) (fileName data : String)
    (hc : r.httpWriter.committed = none)
    (hw : r.httpWriter.writeError = none) :
    hvalues ((r.ServeFileAsDownload fileName data).1.httpWriter.header)
        HeaderContentDisposition
      = ["attachment; filename=\"" ++ fileName ++ "\""] ∧
    (r.ServeFileAsDownload fileName data).1.httpWriter.committed
      = some (if r.statusCode = StatusUndefined then StatusOK
          else r.statusCode) ∧
    (r.ServeFileAsDownload fileName data).1.httpWriter.body
      = r.httpWriter.body ++ data ∧
    hvalues ((AddContentDisposition "attachment" fileName [true]
        r2).httpWriter.header) HeaderContentDisposition
      = ["attachment; filename*=UTF-8\x27\x27" ++ pathEscape fileName] := by
  obtain ⟨⟨hdr, cm, bd, we⟩, sc, enc⟩ := r
  simp only at hc hw
  subst hc hw
  refine ⟨?_, ?_, ?_, ?_⟩
  · unfold Response.ServeFileAsDownload Response.prepare Sink.writeHeader
      Sink.write
    dsimp only
    split_ifs <;>
      simp_all [Sink.writeHeader, hvalues_hset, hvalues_hset_ne,
        HeaderContentType, HeaderContentDisposition]
  · unfold Response.ServeFileAsDownload Response.prepare Sink.writeHeader
      Sink.write
    dsimp only
    split_ifs <;> simp_all [Sink.writeHeader, StatusUndefined, StatusOK]
  · unfold Response.ServeFileAsDownload Response.prepare Sink.writeHeader
      Sink.write
    dsimp only
    split_ifs <;> simp_all [Sink.writeHeader]
  · unfold AddContentDisposition WithHeader Response.AddHeader
      Response.SetHeader
    dsimp only
    simp [hvalues_hset, HeaderContentDisposition, singleHeaders]

/-- C2 amended witness: concrete run with the non-ASCII name and a prior
RFC 5987 option value; the final header is the plain form, the body is the
raw bytes, and the option alone yields the RFC 5987 form. -/
theorem download_plain_disposition_witness :
    hvalues ((utf8DownloadResp.ServeFileAsDownload
        "résumé.txt" "raw").1.httpWriter.header) HeaderContentDisposition
      = ["attachment; filename=\"résumé.txt\""] ∧
    (utf8DownloadResp.ServeFileAsDownload
        "résumé.txt" "raw").1.httpWriter.committed = some 200 ∧
    (utf8DownloadResp.ServeFileAsDownload
        "résumé.txt" "raw").1.httpWriter.body = "raw" := by
  refine ⟨?_, ?_, ?_⟩
  · rw [(download_plain_disposition utf8DownloadResp utf8DownloadResp
      "résumé.txt" "raw" rfl rfl).1]
    decide
  · rw [(download_plain_disposition utf8DownloadResp utf8DownloadResp
      "résumé.txt" "raw" rfl rfl).2.1]; decide
  · rw [(download_plain_disposition utf8DownloadResp utf8DownloadResp
      "résumé.txt" "raw" rfl rfl).2.2.1]; decide

end Resp
